import Mathlib

/-!
Verification of the 3D shaded-wireframe viewer (src/3DShader.cpp,
src/3DShaderViewer.hpp) against its natural-language specification.

The geometry pipeline is embedded shallowly: C++ `float` arithmetic is
modelled over `ℝ`, the global mutable state (`vertices`, `transformed`,
`angleX`, `angleY`) is turned into explicit arguments and results, and the
GDI draw calls are modelled as an emitted list of draw commands.  The float
literal `3.14159265f` in the source rounds to the same 32-bit float as π,
so the real-valued model uses `Real.pi`.
-/

namespace Viewer

/-- Mirrors `struct Vertex` of 3DShaderViewer.hpp: an integer id and three
float coordinates (floats modelled as reals). -/
structure Vertex where
  id : Int
  x : ℝ
  y : ℝ
  z : ℝ

/-- Mirrors `struct Face`: three 1-based vertex indices (C++ `int`). -/
structure Face where
  v1 : Int
  v2 : Int
  v3 : Int
  deriving DecidableEq

/-- Mirrors `rotateX` of 3DShader.cpp: rotation of a vertex about the
X-axis by `angle` degrees; the id is copied through unchanged. -/
noncomputable def rotateX (v : Vertex) (angle : ℝ) : Vertex :=
  let rad := angle * Real.pi / 180
  let c := Real.cos rad
  let s := Real.sin rad
  ⟨v.id, v.x, v.y * c - v.z * s, v.y * s + v.z * c⟩

/-- Mirrors `rotateY` of 3DShader.cpp: rotation of a vertex about the
Y-axis by `angle` degrees; the id is copied through unchanged. -/
noncomputable def rotateY (v : Vertex) (angle : ℝ) : Vertex :=
  let rad := angle * Real.pi / 180
  let c := Real.cos rad
  let s := Real.sin rad
  ⟨v.id, v.x * c + v.z * s, v.y, -v.x * s + v.z * c⟩

/-- X-component of the centroid computed at the top of `applyTransform`:
sum of the x coordinates divided by `vertices.size()`.  (For the empty mesh
the C++ code divides 0.0f by 0; the real-valued model yields 0.) -/
noncomputable def centroidX (vs : List Vertex) : ℝ :=
  (vs.map Vertex.x).sum / (vs.length : ℝ)

/-- Y-component of the centroid computed in `applyTransform`. -/
noncomputable def centroidY (vs : List Vertex) : ℝ :=
  (vs.map Vertex.y).sum / (vs.length : ℝ)

/-- Z-component of the centroid computed in `applyTransform`. -/
noncomputable def centroidZ (vs : List Vertex) : ℝ :=
  (vs.map Vertex.z).sum / (vs.length : ℝ)

/-- The per-vertex distance `sqrtf(dx*dx + dy*dy + dz*dz)` from the
centroid, as computed inside the `maxExtent` loop of `applyTransform`. -/
noncomputable def centDist (vs : List Vertex) (v : Vertex) : ℝ :=
  let dx := v.x - centroidX vs
  let dy := v.y - centroidY vs
  let dz := v.z - centroidZ vs
  Real.sqrt (dx * dx + dy * dy + dz * dz)

/-- Mirrors the `maxExtent` accumulation loop of `applyTransform`:
starting from 0, `if (dist > maxExtent) maxExtent = dist` for each vertex
in order. -/
noncomputable def maxExtent (vs : List Vertex) : ℝ :=
  vs.foldl (fun m v => if centDist vs v > m then centDist vs v else m) 0

/-- The `normed` vertex built inside the final loop of `applyTransform`:
translate by minus the centroid, divide componentwise by `maxExtent`.
There is no guard in the source: a zero `maxExtent` is divided by as-is
(IEEE floats give NaN there; the real-valued model gives 0). -/
noncomputable def normVertex (vs : List Vertex) (v : Vertex) : Vertex :=
  ⟨v.id,
   (v.x - centroidX vs) / maxExtent vs,
   (v.y - centroidY vs) / maxExtent vs,
   (v.z - centroidZ vs) / maxExtent vs⟩

/-- Mirrors `applyTransform` of 3DShader.cpp with the globals made
explicit: the mesh `vs` and the two view angles come in as arguments and
the rebuilt `transformed` vector is the result.  Each vertex is normalised,
rotated about X by `angleX`, then about Y by `angleY`, and pushed in input
order. -/
noncomputable def applyTransform (vs : List Vertex) (angleX angleY : ℝ) :
    List Vertex :=
  vs.map (fun v => rotateY (rotateX (normVertex vs v) angleX) angleY)

/-- Concrete two-vertex mesh used by witnesses: ids 1 and 2, coordinates
(0,0,0) and (2,0,0). -/
def mesh2 : List Vertex := [⟨1, 0, 0, 0⟩, ⟨2, 2, 0, 0⟩]

/-- Single-vertex mesh whose one vertex coincides with its centroid, so
`maxExtent` is 0. -/
def meshPoint : List Vertex := [⟨1, 5, 5, 5⟩]

/-- The shared record-collecting loop of `loadVertices` and `loadFaces`:
`for (int i = 0; i < count; ++i) { std::getline(file, line); if
(line.empty()) { --i; continue; } ... }`.  Each iteration consumes one
line of the stream; a blank line is consumed without counting toward the
total.  When the stream is exhausted while records are still owed,
`std::getline` fails and leaves `line` empty, so the loop body hits the
blank-line branch, decrements `i` and retries in the identical state
forever; that diverging state is modelled as `none`. -/
def recordLines : List String → Nat → Option (List String)
  | _, 0 => some []
  | [], _ + 1 => none
  | l :: rest, n + 1 =>
    if l = "" then recordLines rest (n + 1)
    else (recordLines rest n).map (fun ls => l :: ls)

/-- Mirrors `std::replace(line.begin(), line.end(), ',', ' ')`: commas are
normalised to spaces before parsing. -/
def commaToSpace (cs : List Char) : List Char :=
  cs.map (fun c => if c = ',' then ' ' else c)

/-- Accumulating tokenizer over the characters of a record line: maximal
runs of non-whitespace characters, whitespace skipped, exactly as
`istringstream` extraction consumes fields.  `acc` holds the reversed
characters of the token being read. -/
def tokenizeAux : List Char → List Char → List String
  | [], acc => if acc = [] then [] else [String.mk acc.reverse]
  | c :: rest, acc =>
    if c.isWhitespace then
      if acc = [] then tokenizeAux rest []
      else String.mk acc.reverse :: tokenizeAux rest []
    else tokenizeAux rest (c :: acc)

/-- Whitespace-separated fields of a record line after comma
normalisation. -/
def fields (s : String) : List String :=
  tokenizeAux (commaToSpace s.data) []

/-- Decimal value of a digit run. -/
def natOfChars (cs : List Char) : Nat :=
  cs.foldl (fun n c => n * 10 + (c.toNat - 48)) 0

/-- One `iss >> n` integer extraction from a field: a well-formed
(optionally negated) digit run yields its value; since C++11 a failed
extraction writes 0. -/
def parseIntTok (t : String) : Int :=
  match t.data with
  | [] => 0
  | '-' :: rest =>
    if rest ≠ [] ∧ rest.all Char.isDigit then -(natOfChars rest : Int) else 0
  | cs => if cs.all Char.isDigit then (natOfChars cs : Int) else 0

/-- Mirrors the record-parsing body of `loadFaces`: three integer
extractions `iss >> f.v1 >> f.v2 >> f.v3` from the normalised line; a
missing or malformed field yields 0 (C++11 failed-extraction value).
No range check of any kind is performed on the indices. -/
def parseFace (line : String) : Face :=
  match fields line with
  | a :: b :: c :: _ => ⟨parseIntTok a, parseIntTok b, parseIntTok c⟩
  | [a, b] => ⟨parseIntTok a, parseIntTok b, 0⟩
  | [a] => ⟨parseIntTok a, 0, 0⟩
  | [] => ⟨0, 0, 0⟩

/-- Mirrors `loadFaces` of 3DShader.cpp: the `recordLines` loop applied to
the stream, each collected record parsed by `parseFace`.  `none` models
the loop never terminating (truncated stream). -/
def loadFaces (lines : List String) (faceCount : Nat) : Option (List Face) :=
  (recordLines lines faceCount).map (fun ls => ls.map parseFace)

/-- Mirrors `loadVertices` of 3DShader.cpp.  The loop structure is exactly
`recordLines`; the numeric field extraction `iss >> v.id >> v.x >> v.y >>
v.z` (float lexing) is abstracted as the `parseVertex` argument, which the
theorems quantify over. -/
def loadVertices (parseVertex : String → Vertex) (lines : List String)
    (vertexCount : Nat) : Option (List Vertex) :=
  (recordLines lines vertexCount).map (fun ls => ls.map parseVertex)

/-- A vertex stream truncated before the declared count: one record line
where two were declared. -/
def truncatedLines : List String := ["1 0 0 0"]

/-- A face record whose indices are out of range for a one-vertex mesh. -/
def badFaceLines : List String := ["2 2 2"]

/-- A stream with a blank line between two records. -/
def blankGapLines : List String := ["1 0 0 0", "", "2 1 1 1"]

/-- `const int WIDTH = 800`. -/
def WIDTH : Int := 800

/-- `const int HEIGHT = 600`. -/
def HEIGHT : Int := 600

/-- `static_cast<LONG>` / `static_cast<int>` on a float: truncation toward
zero. -/
noncomputable def castLong (r : ℝ) : Int :=
  if r < 0 then ⌈r⌉ else ⌊r⌋

/-- Mirrors `project` of 3DShader.cpp: scale is `min(WIDTH, HEIGHT) *
0.4f`, screen x is `WIDTH/2 + v.x*scale`, screen y is `HEIGHT/2 -
v.y*scale` (flipped), both truncated to integers. -/
noncomputable def project (v : Vertex) : Int × Int :=
  let scale : ℝ := ((min WIDTH HEIGHT : Int) : ℝ) * 0.4
  (castLong (((WIDTH / 2 : Int) : ℝ) + v.x * scale),
   castLong (((HEIGHT / 2 : Int) : ℝ) - v.y * scale))

/-- The zero-initialised `Vertex` used to totalise positional lookup (the
C++ lookup `transformed[i]` is simply out of bounds when the index is bad;
see the C6 result). -/
def defaultVertex : Vertex := ⟨0, 0, 0, 0⟩

/-- The positional lookup `transformed[idx - 1]` performed by
`drawShadedModel` on a 1-based face index. -/
noncomputable def vtx (ts : List Vertex) (i : Int) : Vertex :=
  ts.getD (i - 1).toNat defaultVertex

/-- `nx = uy*vz - uz*vy` with `u = v2 - v1`, `v = v3 - v1`. -/
noncomputable def normalX (a b c : Vertex) : ℝ :=
  (b.y - a.y) * (c.z - a.z) - (b.z - a.z) * (c.y - a.y)

/-- `ny = uz*vx - ux*vz`. -/
noncomputable def normalY (a b c : Vertex) : ℝ :=
  (b.z - a.z) * (c.x - a.x) - (b.x - a.x) * (c.z - a.z)

/-- `nz = ux*vy - uy*vx`. -/
noncomputable def normalZ (a b c : Vertex) : ℝ :=
  (b.x - a.x) * (c.y - a.y) - (b.y - a.y) * (c.x - a.x)

/-- `length = sqrtf(nx*nx + ny*ny + nz*nz)`: Euclidean length of the face
cross-product normal. -/
noncomputable def normalLen (a b c : Vertex) : ℝ :=
  Real.sqrt (normalX a b c * normalX a b c + normalY a b c * normalY a b c +
    normalZ a b c * normalZ a b c)

/-- The Z-component of the unit normal after `nz /= length`. -/
noncomputable def unitNz (a b c : Vertex) : ℝ :=
  normalZ a b c / normalLen a b c

/-- `intensity = fabs(nz)` on the normalised normal. -/
noncomputable def intensity (a b c : Vertex) : ℝ :=
  |unitNz a b c|

/-- `int blue = static_cast<int>(0x5F + intensity * (0xFF - 0x5F))`. -/
noncomputable def blueVal (a b c : Vertex) : Int :=
  castLong ((0x5F : ℝ) + intensity a b c * (0xFF - 0x5F))

/-- The draw-command stream emitted to the renderer surface: filled
triangles (`Polygon`), wireframe segments (`MoveToEx`/`LineTo`), and
filled circles (`Ellipse`), each with 2D integer coordinates and RGB
colors. -/
inductive DrawCmd where
  | tri (p1 p2 p3 : Int × Int) (red green blue : Int)
  | seg (p q : Int × Int)
  | dot (center : Int × Int) (radius : Int) (red green blue : Int)
  deriving DecidableEq

/-- Mirrors `struct IndexedFace { Face face; float avgZ; }` of
`drawShadedModel`. -/
structure IndexedFace where
  face : Face
  avgZ : ℝ

/-- The pre-sort list built by `drawShadedModel`: each face paired with
the average Z of its three (positionally looked-up) transformed
vertices. -/
noncomputable def indexedFaces (ts : List Vertex) (fs : List Face) :
    List IndexedFace :=
  fs.map (fun f =>
    ⟨f, ((vtx ts f.v1).z + (vtx ts f.v2).z + (vtx ts f.v3).z) / 3⟩)

/-- The draw commands emitted for one face of the sorted list: nothing
when the cross-product length is below `1e-6` (`continue`), otherwise one
filled triangle in the shaded color (red 0, green 0, computed blue)
followed by the three black wireframe edges. -/
noncomputable def emitFace (ts : List Vertex) (f : Face) : List DrawCmd :=
  let a := vtx ts f.v1
  let b := vtx ts f.v2
  let c := vtx ts f.v3
  if normalLen a b c < 1e-6 then []
  else
    [DrawCmd.tri (project a) (project b) (project c) 0 0 (blueVal a b c),
     DrawCmd.seg (project a) (project b),
     DrawCmd.seg (project b) (project c),
     DrawCmd.seg (project c) (project a)]

/-- The per-face update of `vertexVisible`: skipped entirely for a
degenerate face; otherwise, when the unit normal's Z-component is strictly
positive, the three slots `f.v* - 1` are set. -/
noncomputable def visUpdate (ts : List Vertex) (f : Face) (vis : List Bool) :
    List Bool :=
  let a := vtx ts f.v1
  let b := vtx ts f.v2
  let c := vtx ts f.v3
  if normalLen a b c < 1e-6 then vis
  else if 0 < unitNz a b c then
    ((vis.set (f.v1 - 1).toNat true).set (f.v2 - 1).toNat true).set
      (f.v3 - 1).toNat true
  else vis

/-- One iteration of the main face loop of `drawShadedModel`: append the
face's draw commands and update the visibility flags. -/
noncomputable def renderStep (ts : List Vertex)
    (acc : List DrawCmd × List Bool) (e : IndexedFace) :
    List DrawCmd × List Bool :=
  (acc.1 ++ emitFace ts e.face, visUpdate ts e.face acc.2)

/-- The main face loop over the depth-sorted list, starting from no
commands and all-false visibility flags (`std::vector<bool>
vertexVisible(transformed.size(), false)`). -/
noncomputable def renderFaces (ts : List Vertex)
    (sorted : List IndexedFace) : List DrawCmd × List Bool :=
  sorted.foldl (renderStep ts) ([], List.replicate ts.length false)

/-- The vertex-dot pass after the face loop: for each index in order, skip
when the flag is unset (`!vertexVisible[i]`) or the transformed Z is `<=
0`; otherwise emit a radius-3 solid blue circle at the projected
position. -/
noncomputable def dotCmds (ts : List Vertex) (vis : List Bool) :
    List DrawCmd :=
  (List.range ts.length).filterMap (fun i =>
    if vis.getD i false = true then
      if (ts.getD i defaultVertex).z ≤ 0 then none
      else some (DrawCmd.dot (project (ts.getD i defaultVertex)) 3 0 0 255)
    else none)

/-- The full command stream `drawShadedModel` emits for one given sorted
face list: the face loop's commands followed by the dot pass. -/
noncomputable def renderSorted (ts : List Vertex)
    (sorted : List IndexedFace) : List DrawCmd :=
  (renderFaces ts sorted).1 ++ dotCmds ts (renderFaces ts sorted).2

/-- The postcondition of `std::sort(sortedFaces.begin(), sortedFaces.end(),
[](a, b){ return a.avgZ < b.avgZ; })`: the result is a permutation of the
input that is sorted with respect to the comparator — i.e. pairwise
`¬ (b.avgZ < a.avgZ)`, written `a.avgZ ≤ b.avgZ`.  The C++ standard
guarantees nothing more: in particular `std::sort` is *not* stable, so the
relative order of equal-`avgZ` faces is unspecified. -/
def SortedBy (orig s : List IndexedFace) : Prop :=
  s.Perm orig ∧ s.Pairwise (fun e1 e2 => e1.avgZ ≤ e2.avgZ)

/-- The relational semantics of `drawShadedModel` on transformed vertices
`ts` and loaded faces `fs`: `out` is an allowed command stream iff it is
the rendering of some sorted permutation admitted by `std::sort`. -/
def DrawOutput (ts : List Vertex) (fs : List Face) (out : List DrawCmd) :
    Prop :=
  ∃ s, SortedBy (indexedFaces ts fs) s ∧ out = renderSorted ts s

/-- Face indices in range for an `n`-vertex mesh: the spec's invariant
`[1, len(vertices)]`, under which every positional lookup and
visibility-flag write of `drawShadedModel` is in bounds. -/
def faceValid (n : Nat) (f : Face) : Prop :=
  1 ≤ f.v1 ∧ f.v1 ≤ (n : Int) ∧ 1 ≤ f.v2 ∧ f.v2 ≤ (n : Int) ∧
    1 ≤ f.v3 ∧ f.v3 ≤ (n : Int)

/-- Vertex slot `i` (0-based) is one of the three slots face `f` writes
when marking visibility. -/
def faceHasVertex (f : Face) (i : Nat) : Prop :=
  (f.v1 - 1).toNat = i ∨ (f.v2 - 1).toNat = i ∨ (f.v3 - 1).toNat = i

/-- Face `f` marks vertex slot `i` visible: the face is non-degenerate,
its unit normal has strictly positive Z, and `i` is one of its slots. -/
def marksVertex (ts : List Vertex) (f : Face) (i : Nat) : Prop :=
  ¬ normalLen (vtx ts f.v1) (vtx ts f.v2) (vtx ts f.v3) < 1e-6 ∧
    0 < unitNz (vtx ts f.v1) (vtx ts f.v2) (vtx ts f.v3) ∧ faceHasVertex f i

/-- The coordinate triple of a vertex, forgetting its id. -/
def coordsOf (v : Vertex) : ℝ × ℝ × ℝ :=
  (v.x, v.y, v.z)

/-- Two meshes that agree on all coordinates in order — they may differ
arbitrarily in the parsed `id` fields. -/
def SameCoords (vs ws : List Vertex) : Prop :=
  vs.map coordsOf = ws.map coordsOf

/-- Erase a vertex's id, keeping its coordinates. -/
def reIdFun (v : Vertex) : Vertex :=
  ⟨0, v.x, v.y, v.z⟩

/-- Erase every id of a mesh: two meshes are `SameCoords` exactly when
their id-erased forms coincide. -/
def reId (l : List Vertex) : List Vertex :=
  l.map reIdFun

/-- `mesh2` with different vertex ids (7 and 9) on identical
coordinates. -/
def mesh2Ids : List Vertex := [⟨7, 0, 0, 0⟩, ⟨9, 2, 0, 0⟩]

/-- The unit right triangle of the spec's concrete shading test: vertices
1:(0,0,0), 2:(1,0,0), 3:(0,1,0). -/
def triVerts : List Vertex := [⟨1, 0, 0, 0⟩, ⟨2, 1, 0, 0⟩, ⟨3, 0, 1, 0⟩]

/-- The face (1,2,3) over `triVerts`. -/
def face123 : Face := ⟨1, 2, 3⟩

/-- A degenerate indexed face: all three indices name the same vertex. -/
noncomputable def degFace : IndexedFace := ⟨⟨1, 1, 1⟩, 0⟩

/-- Four coplanar vertices (all z = 0) forming a unit square. -/
def quadVerts : List Vertex :=
  [⟨1, 0, 0, 0⟩, ⟨2, 1, 0, 0⟩, ⟨3, 0, 1, 0⟩, ⟨4, 1, 1, 0⟩]

/-- Lower-left triangle of the square. -/
def faceQ1 : Face := ⟨1, 2, 3⟩

/-- Upper-right triangle of the square. -/
def faceQ2 : Face := ⟨2, 4, 3⟩

/-- The two square faces in load order. -/
def quadFaces : List Face := [faceQ1, faceQ2]

/-- `faceQ1` paired with its average depth 0. -/
noncomputable def eQ1 : IndexedFace := ⟨faceQ1, 0⟩

/-- `faceQ2` paired with its average depth 0. -/
noncomputable def eQ2 : IndexedFace := ⟨faceQ2, 0⟩

/-- Recognises the filled-triangle commands of a stream. -/
def isTri : DrawCmd → Bool
  | DrawCmd.tri _ _ _ _ _ _ => true
  | _ => false

/-- The fill command a face of the sorted list contributes: none when
degenerate, otherwise the shaded triangle `emitFace` puts first. -/
noncomputable def triOf (ts : List Vertex) (e : IndexedFace) :
    Option DrawCmd :=
  if normalLen (vtx ts e.face.v1) (vtx ts e.face.v2) (vtx ts e.face.v3)
      < 1e-6 then none
  else some (DrawCmd.tri (project (vtx ts e.face.v1))
    (project (vtx ts e.face.v2)) (project (vtx ts e.face.v3)) 0 0
    (blueVal (vtx ts e.face.v1) (vtx ts e.face.v2) (vtx ts e.face.v3)))

end Viewer

namespace Viewer

/-- C1: for every mesh with at least one vertex and positive `maxExtent`,
`applyTransform` returns a sequence of the same length, order and ids as
the input (a `List.map` over it), where each vertex is translated by minus
the centroid, divided by `maxExtent`, rotated about the X-axis by `angleX`
degrees (y = y·cos t − z·sin t, z = y·sin t + z·cos t, x unchanged) and
then about the Y-axis by `angleY` degrees (x = x·cos t + z·sin t,
z = −x·sin t + z·cos t, y unchanged), with t = angle·π/180 — rotation
order X then Y. -/
theorem applyTransform_formula (vs : List Vertex) (aX aY : ℝ)
    (hne : vs ≠ []) (hpos : 0 < maxExtent vs) :
    applyTransform vs aX aY = vs.map (fun v =>
      let tX := aX * Real.pi / 180
      let tY := aY * Real.pi / 180
      let px := (v.x - centroidX vs) / maxExtent vs
      let py := (v.y - centroidY vs) / maxExtent vs
      let pz := (v.z - centroidZ vs) / maxExtent vs
      let y1 := py * Real.cos tX - pz * Real.sin tX
      let z1 := py * Real.sin tX + pz * Real.cos tX
      ⟨v.id, px * Real.cos tY + z1 * Real.sin tY, y1,
        -px * Real.sin tY + z1 * Real.cos tY⟩) := by
  unfold applyTransform rotateY rotateX normVertex
  rfl

/-- The `maxExtent` of the concrete mesh `mesh2` is 1 (both vertices are
at distance 1 from the centroid (1,0,0)). -/
theorem maxExtent_mesh2 : maxExtent mesh2 = 1 := by
  simp only [maxExtent, centDist, centroidX, centroidY, centroidZ, mesh2,
    List.foldl, List.map, List.sum_cons, List.sum_nil, List.length_cons,
    List.length_nil]
  norm_num

/-- Witness for C1: the hypotheses hold for the concrete mesh `mesh2` and
the conclusion follows by `applyTransform_formula`. -/
theorem applyTransform_formula_witness :
    mesh2 ≠ [] ∧ 0 < maxExtent mesh2 ∧
    applyTransform mesh2 0 0 = mesh2.map (fun v =>
      let tX := (0 : ℝ) * Real.pi / 180
      let tY := (0 : ℝ) * Real.pi / 180
      let px := (v.x - centroidX mesh2) / maxExtent mesh2
      let py := (v.y - centroidY mesh2) / maxExtent mesh2
      let pz := (v.z - centroidZ mesh2) / maxExtent mesh2
      let y1 := py * Real.cos tX - pz * Real.sin tX
      let z1 := py * Real.sin tX + pz * Real.cos tX
      ⟨v.id, px * Real.cos tY + z1 * Real.sin tY, y1,
        -px * Real.sin tY + z1 * Real.cos tY⟩) := by
  have hpos : 0 < maxExtent mesh2 := by rw [maxExtent_mesh2]; norm_num
  exact ⟨by simp [mesh2], hpos,
    applyTransform_formula mesh2 0 0 (by simp [mesh2]) hpos⟩

/-- C7 (code bug): on a stream truncated before the declared record count
the loading loop does not terminate with a `LoadError` — it diverges
(modelled as `none`): at end of file `std::getline` keeps yielding an
empty line, which the blank-line branch treats as a skip, decrementing the
loop counter forever.  On streams with enough records the loop does
collect exactly the declared number of non-blank lines, skipping blanks. -/
theorem loader_diverges_on_truncation :
    (∀ p : String → Vertex, loadVertices p truncatedLines 2 = none) ∧
    loadFaces truncatedLines 2 = none ∧
    recordLines blankGapLines 2 = some ["1 0 0 0", "2 1 1 1"] :=
  ⟨fun _ => rfl, rfl, rfl⟩

/-- C6 (code bug): `loadFaces` performs no range validation at all — a
face record (2,2,2), out of range for a one-vertex mesh, is accepted and
returned, so `drawShadedModel`'s positional lookup `transformed[f.v1 - 1]`
would read out of bounds. -/
theorem loadFaces_no_validation :
    loadFaces badFaceLines 1 = some [⟨2, 2, 2⟩] := rfl

/-- C8 (code bug): `applyTransform` has no empty-mesh or zero-extent
guard.  On the empty mesh it silently returns the empty sequence (no
`EmptyMeshError` path exists — the function is total), and on `meshPoint`,
whose single vertex coincides with the centroid, `maxExtent` is exactly 0
yet a transformed vertex is still produced: the source divides by 0
unguarded (IEEE floats give NaN there; real division by zero makes the
model yield 0). -/
theorem applyTransform_no_guard :
    maxExtent meshPoint = 0 ∧ applyTransform ([] : List Vertex) 0 0 = [] ∧
    (applyTransform meshPoint 0 0).length = 1 := by
  refine ⟨?_, rfl, by simp [applyTransform, meshPoint]⟩
  simp only [maxExtent, centDist, centroidX, centroidY, centroidZ, meshPoint,
    List.foldl, List.map, List.sum_cons, List.sum_nil, List.length_cons,
    List.length_nil]
  norm_num

/-- C2: for every non-degenerate face the shading intensity is the
absolute value of the Z-component of the unit face normal
(|nz| / ‖cross‖), and the emitted commands are exactly one filled triangle
whose color has red 0, green 0 and blue `0x5F + intensity·(0xFF − 0x5F)`
(truncated to int), followed by the three wireframe edges. -/
theorem shading_formula (ts : List Vertex) (f : Face)
    (h : ¬ normalLen (vtx ts f.v1) (vtx ts f.v2) (vtx ts f.v3) < 1e-6) :
    intensity (vtx ts f.v1) (vtx ts f.v2) (vtx ts f.v3) =
      |normalZ (vtx ts f.v1) (vtx ts f.v2) (vtx ts f.v3)| /
        normalLen (vtx ts f.v1) (vtx ts f.v2) (vtx ts f.v3) ∧
    emitFace ts f =
      [DrawCmd.tri (project (vtx ts f.v1)) (project (vtx ts f.v2))
        (project (vtx ts f.v3)) 0 0
        (castLong ((0x5F : ℝ) +
          intensity (vtx ts f.v1) (vtx ts f.v2) (vtx ts f.v3) *
            (0xFF - 0x5F))),
       DrawCmd.seg (project (vtx ts f.v1)) (project (vtx ts f.v2)),
       DrawCmd.seg (project (vtx ts f.v2)) (project (vtx ts f.v3)),
       DrawCmd.seg (project (vtx ts f.v3)) (project (vtx ts f.v1))] := by
  constructor
  · rw [intensity, unitNz, abs_div]
    congr 1
    exact abs_of_nonneg (Real.sqrt_nonneg _)
  · rw [emitFace, blueVal]
    simp only [if_neg h]

/-- The three lookups of `face123` in `triVerts`. -/
theorem vtx_triVerts :
    vtx triVerts 1 = ⟨1, 0, 0, 0⟩ ∧ vtx triVerts 2 = ⟨2, 1, 0, 0⟩ ∧
      vtx triVerts 3 = ⟨3, 0, 1, 0⟩ :=
  ⟨rfl, rfl, rfl⟩

/-- The cross normal of the spec's concrete face is (0,0,1) with length
1. -/
theorem normal_triVerts :
    normalX (vtx triVerts 1) (vtx triVerts 2) (vtx triVerts 3) = 0 ∧
    normalY (vtx triVerts 1) (vtx triVerts 2) (vtx triVerts 3) = 0 ∧
    normalZ (vtx triVerts 1) (vtx triVerts 2) (vtx triVerts 3) = 1 ∧
    normalLen (vtx triVerts 1) (vtx triVerts 2) (vtx triVerts 3) = 1 := by
  obtain ⟨h1, h2, h3⟩ := vtx_triVerts
  rw [h1, h2, h3]
  refine ⟨?_, ?_, ?_, ?_⟩ <;>
    norm_num [normalX, normalY, normalZ, normalLen, Real.sqrt_one]

/-- Witness for C2, at the spec's concrete face over (0,0,0), (1,0,0),
(0,1,0): the face is non-degenerate, the unit normal's Z-component is 1,
the intensity is 1, and the emitted fill is blue 0xFF = 255 at the
projected corners (400,300), (640,300), (400,60). -/
theorem shading_formula_witness :
    ¬ normalLen (vtx triVerts 1) (vtx triVerts 2) (vtx triVerts 3) < 1e-6 ∧
    unitNz (vtx triVerts 1) (vtx triVerts 2) (vtx triVerts 3) = 1 ∧
    intensity (vtx triVerts 1) (vtx triVerts 2) (vtx triVerts 3) = 1 ∧
    emitFace triVerts face123 =
      [DrawCmd.tri (400, 300) (640, 300) (400, 60) 0 0 255,
       DrawCmd.seg (400, 300) (640, 300),
       DrawCmd.seg (640, 300) (400, 60),
       DrawCmd.seg (400, 60) (400, 300)] := by
  obtain ⟨hx, hy, hz, hlen⟩ := normal_triVerts
  obtain ⟨h1, h2, h3⟩ := vtx_triVerts
  have hnd : ¬ normalLen (vtx triVerts 1) (vtx triVerts 2)
      (vtx triVerts 3) < 1e-6 := by rw [hlen]; norm_num
  have hu : unitNz (vtx triVerts 1) (vtx triVerts 2) (vtx triVerts 3) = 1 := by
    rw [unitNz, hz, hlen]; norm_num
  have hi : intensity (vtx triVerts 1) (vtx triVerts 2)
      (vtx triVerts 3) = 1 := by
    rw [intensity, hu]; norm_num
  have hf1 : face123.v1 = 1 := rfl
  have hf2 : face123.v2 = 2 := rfl
  have hf3 : face123.v3 = 3 := rfl
  have hemit := (shading_formula triVerts face123
    (by rw [hf1, hf2, hf3]; exact hnd)).2
  refine ⟨hnd, hu, hi, ?_⟩
  rw [hemit, hf1, hf2, hf3, hi, h1, h2, h3]
  norm_num [project, castLong, WIDTH, HEIGHT, min_def,
    Int.floor_intCast]

/-- C5: a face whose cross-product normal has length below `1e-6` is
skipped entirely by the rasterizer: deleting it from the sorted face list
leaves the whole emitted command stream (fills, wireframe edges, and the
visibility-driven vertex dots) unchanged, and no error is raised — the
render function is total. -/
theorem degenerate_face_skipped (ts : List Vertex) (e : IndexedFace)
    (pre post : List IndexedFace)
    (hdeg : normalLen (vtx ts e.face.v1) (vtx ts e.face.v2)
      (vtx ts e.face.v3) < 1e-6) :
    renderSorted ts (pre ++ e :: post) = renderSorted ts (pre ++ post) := by
  have hstep : ∀ acc, renderStep ts acc e = acc := by
    intro acc
    rw [renderStep, emitFace, visUpdate]
    simp only [if_pos hdeg, List.append_nil]
  rw [renderSorted, renderSorted, renderFaces, renderFaces,
    List.foldl_append, List.foldl_append, List.foldl_cons, hstep]

/-- Witness for C5: the all-coincident face `degFace` over `meshPoint` has
cross length 0 < 1e-6, and removing it from the singleton sorted list
leaves the command stream unchanged. -/
theorem degenerate_face_skipped_witness :
    normalLen (vtx meshPoint degFace.face.v1) (vtx meshPoint degFace.face.v2)
      (vtx meshPoint degFace.face.v3) < 1e-6 ∧
    renderSorted meshPoint ([] ++ degFace :: []) =
      renderSorted meshPoint ([] ++ []) := by
  have hv : vtx meshPoint (1 : Int) = ⟨1, 5, 5, 5⟩ := rfl
  have hdeg : normalLen (vtx meshPoint degFace.face.v1)
      (vtx meshPoint degFace.face.v2) (vtx meshPoint degFace.face.v3)
        < 1e-6 := by
    show normalLen (vtx meshPoint 1) (vtx meshPoint 1) (vtx meshPoint 1)
      < 1e-6
    rw [hv]
    norm_num [normalX, normalY, normalZ, normalLen, Real.sqrt_zero]
  exact ⟨hdeg, degenerate_face_skipped meshPoint degFace [] [] hdeg⟩

/-- Reading a visibility slot after one `set`: true exactly when the set
hit this slot in range, or it was already true. -/
theorem getD_set_true (vis : List Bool) (j i : Nat) :
    ((vis.set j true).getD i false = true) ↔
      ((j = i ∧ j < vis.length) ∨ vis.getD i false = true) := by
  rw [List.getD_eq_getElem?_getD, List.getD_eq_getElem?_getD,
    List.getElem?_set]
  by_cases hji : j = i
  · subst hji
    by_cases hlt : j < vis.length
    · simp [hlt]
    · simp [hlt, List.getElem?_eq_none (Nat.le_of_not_lt hlt)]
  · simp [hji]

/-- The three visibility-slot positions of a valid face are in range. -/
theorem slot_lt_of_valid {n : Nat} {f : Face} (h : faceValid n f) :
    (f.v1 - 1).toNat < n ∧ (f.v2 - 1).toNat < n ∧ (f.v3 - 1).toNat < n := by
  obtain ⟨h1, h2, h3, h4, h5, h6⟩ := h
  refine ⟨?_, ?_, ?_⟩ <;> omega

/-- One `visUpdate` leaves slot `i` true exactly when the face marks `i`
or it was already true (for a valid face over flags of mesh length). -/
theorem visUpdate_getD (ts : List Vertex) (f : Face) (vis : List Bool)
    (hlen : vis.length = ts.length) (hval : faceValid ts.length f) (i : Nat) :
    ((visUpdate ts f vis).getD i false = true) ↔
      (marksVertex ts f i ∨ vis.getD i false = true) := by
  obtain ⟨s1, s2, s3⟩ := slot_lt_of_valid hval
  have t1 : (f.v1 - 1).toNat < vis.length := by rw [hlen]; exact s1
  have t2 : (f.v2 - 1).toNat < vis.length := by rw [hlen]; exact s2
  have t3 : (f.v3 - 1).toNat < vis.length := by rw [hlen]; exact s3
  simp only [visUpdate]
  by_cases hdeg : normalLen (vtx ts f.v1) (vtx ts f.v2) (vtx ts f.v3) < 1e-6
  · rw [if_pos hdeg]
    simp [marksVertex, hdeg]
  · rw [if_neg hdeg]
    by_cases hnz : 0 < unitNz (vtx ts f.v1) (vtx ts f.v2) (vtx ts f.v3)
    · rw [if_pos hnz, getD_set_true, getD_set_true, getD_set_true]
      simp only [List.length_set, t1, t2, t3, and_true]
      simp only [marksVertex, faceHasVertex, hdeg, hnz, not_false_iff,
        true_and]
      tauto
    · rw [if_neg hnz]
      simp [marksVertex, hnz]

/-- `visUpdate` preserves the length of the flag vector. -/
theorem visUpdate_length (ts : List Vertex) (f : Face) (vis : List Bool) :
    (visUpdate ts f vis).length = vis.length := by
  simp only [visUpdate]
  split_ifs <;> simp [List.length_set]

/-- Characterisation of the visibility flags after folding the face loop:
slot `i` is true exactly when some face of the list marks it or it started
true. -/
theorem visFold_getD (ts : List Vertex) (s : List IndexedFace)
    (hval : ∀ e ∈ s, faceValid ts.length e.face) :
    ∀ acc : List DrawCmd × List Bool, acc.2.length = ts.length → ∀ i,
      (((s.foldl (renderStep ts) acc).2.getD i false = true) ↔
        ((∃ e ∈ s, marksVertex ts e.face i) ∨ acc.2.getD i false = true)) := by
  induction s with
  | nil => intro acc hlen i; simp
  | cons e s ih =>
    intro acc hlen i
    rw [List.foldl_cons]
    have hlen2 : (renderStep ts acc e).2.length = ts.length := by
      show (visUpdate ts e.face acc.2).length = ts.length
      rw [visUpdate_length, hlen]
    rw [ih (fun x hx => hval x (List.mem_cons_of_mem _ hx))
      (renderStep ts acc e) hlen2 i]
    have hstep : (renderStep ts acc e).2 = visUpdate ts e.face acc.2 := rfl
    rw [hstep, visUpdate_getD ts e.face acc.2 hlen
      (hval e (List.mem_cons_self _ _)) i]
    simp only [List.mem_cons]
    constructor
    · rintro (⟨x, hx, hm⟩ | hm | hacc)
      · exact .inl ⟨x, .inr hx, hm⟩
      · exact .inl ⟨e, .inl rfl, hm⟩
      · exact .inr hacc
    · rintro (⟨x, rfl | hx, hm⟩ | hacc)
      · exact .inr (.inl hm)
      · exact .inl ⟨x, hx, hm⟩
      · exact .inr (.inr hacc)

/-- A fresh all-false flag vector reads false everywhere. -/
theorem getD_replicate_false (n i : Nat) :
    (List.replicate n false).getD i false = false := by
  rw [List.getD_eq_getElem?_getD, List.getElem?_replicate]
  split_ifs <;> rfl

/-- The dot pass in the claim's if-and-only-if shape: a dot is produced
for index `i` exactly when the flag is set and the transformed Z is
strictly positive (the code skips on `z <= 0`). -/
theorem dotCmds_rule (ts : List Vertex) (vis : List Bool) :
    dotCmds ts vis = (List.range ts.length).filterMap (fun i =>
      if vis.getD i false = true ∧ 0 < (ts.getD i defaultVertex).z then
        some (DrawCmd.dot (project (ts.getD i defaultVertex)) 3 0 0 255)
      else none) := by
  rw [dotCmds]
  congr 1
  funext i
  by_cases h1 : vis.getD i false = true
  · by_cases h2 : (ts.getD i defaultVertex).z ≤ 0
    · rw [if_pos h1, if_pos h2, if_neg]
      rintro ⟨-, hz⟩
      exact absurd hz (not_lt.mpr h2)
    · rw [if_pos h1, if_neg h2, if_pos ⟨h1, lt_of_not_le h2⟩]
  · rw [if_neg h1, if_neg]
    rintro ⟨hc, -⟩
    exact h1 hc

/-- C3: for any admissible depth-sorted order, (a) a vertex slot ends up
marked visible iff it belongs to at least one loaded non-degenerate face
whose unit normal has strictly positive Z-component, and (b) the dot pass
emits a radius-3 blue circle at index `i`'s projected position iff its
flag is set and its transformed Z is strictly positive (a vertex with
`z = 0` gets no marker even when flagged). -/
theorem visibility_rule (ts : List Vertex) (fs : List Face)
    (sorted : List IndexedFace)
    (hval : ∀ f ∈ fs, faceValid ts.length f)
    (hs : SortedBy (indexedFaces ts fs) sorted) :
    (∀ i, (((renderFaces ts sorted).2.getD i false = true) ↔
        ∃ f ∈ fs, faceHasVertex f i ∧
          ¬ normalLen (vtx ts f.v1) (vtx ts f.v2) (vtx ts f.v3) < 1e-6 ∧
          0 < unitNz (vtx ts f.v1) (vtx ts f.v2) (vtx ts f.v3))) ∧
    dotCmds ts (renderFaces ts sorted).2 =
      (List.range ts.length).filterMap (fun i =>
        if (renderFaces ts sorted).2.getD i false = true ∧
            0 < (ts.getD i defaultVertex).z then
          some (DrawCmd.dot (project (ts.getD i defaultVertex)) 3 0 0 255)
        else none) := by
  have hvalS : ∀ e ∈ sorted, faceValid ts.length e.face := by
    intro e he
    have hmem : e ∈ indexedFaces ts fs := hs.1.mem_iff.mp he
    rw [indexedFaces] at hmem
    obtain ⟨f, hf, rfl⟩ := List.mem_map.mp hmem
    exact hval f hf
  refine ⟨?_, dotCmds_rule ts _⟩
  intro i
  rw [renderFaces, visFold_getD ts sorted hvalS _ (by simp) i]
  simp only [getD_replicate_false, Bool.false_eq_true, or_false]
  constructor
  · rintro ⟨e, he, hm⟩
    obtain ⟨f, hf, rfl⟩ := List.mem_map.mp (hs.1.mem_iff.mp he)
    exact ⟨f, hf, hm.2.2, hm.1, hm.2.1⟩
  · rintro ⟨f, hf, hhas, hnd, hnz⟩
    refine ⟨⟨f, ((vtx ts f.v1).z + (vtx ts f.v2).z + (vtx ts f.v3).z) / 3⟩,
      hs.1.mem_iff.mpr ?_, hnd, hnz, hhas⟩
    rw [indexedFaces]
    exact List.mem_map.mpr ⟨f, hf, rfl⟩

/-- Witness for C3 at the concrete one-face mesh `triVerts` /
`face123`, using the identity sorted order. -/
theorem visibility_rule_witness :
    (∀ f ∈ [face123], faceValid triVerts.length f) ∧
    SortedBy (indexedFaces triVerts [face123])
      (indexedFaces triVerts [face123]) ∧
    ((∀ i, (((renderFaces triVerts
        (indexedFaces triVerts [face123])).2.getD i false = true) ↔
        ∃ f ∈ [face123], faceHasVertex f i ∧
          ¬ normalLen (vtx triVerts f.v1) (vtx triVerts f.v2)
            (vtx triVerts f.v3) < 1e-6 ∧
          0 < unitNz (vtx triVerts f.v1) (vtx triVerts f.v2)
            (vtx triVerts f.v3))) ∧
    dotCmds triVerts (renderFaces triVerts
        (indexedFaces triVerts [face123])).2 =
      (List.range triVerts.length).filterMap (fun i =>
        if (renderFaces triVerts
              (indexedFaces triVerts [face123])).2.getD i false = true ∧
            0 < (triVerts.getD i defaultVertex).z then
          some (DrawCmd.dot (project (triVerts.getD i defaultVertex))
            3 0 0 255)
        else none)) := by
  have hval : ∀ f ∈ [face123], faceValid triVerts.length f := by
    intro f hf
    rw [List.mem_singleton] at hf
    subst hf
    refine ⟨?_, ?_, ?_, ?_, ?_, ?_⟩ <;> norm_num [face123, triVerts]
  have hsort : SortedBy (indexedFaces triVerts [face123])
      (indexedFaces triVerts [face123]) := by
    refine ⟨List.Perm.refl _, ?_⟩
    rw [indexedFaces]
    simp
  exact ⟨hval, hsort, visibility_rule triVerts [face123] _ hval hsort⟩

/-- The commands emitted for the lower-left square face. -/
theorem emitFace_quad1 : emitFace quadVerts faceQ1 =
    [DrawCmd.tri (400, 300) (640, 300) (400, 60) 0 0 255,
     DrawCmd.seg (400, 300) (640, 300),
     DrawCmd.seg (640, 300) (400, 60),
     DrawCmd.seg (400, 60) (400, 300)] := by
  have ha : vtx quadVerts faceQ1.v1 = ⟨1, 0, 0, 0⟩ := rfl
  have hb : vtx quadVerts faceQ1.v2 = ⟨2, 1, 0, 0⟩ := rfl
  have hc : vtx quadVerts faceQ1.v3 = ⟨3, 0, 1, 0⟩ := rfl
  have hlen : normalLen (vtx quadVerts faceQ1.v1) (vtx quadVerts faceQ1.v2)
      (vtx quadVerts faceQ1.v3) = 1 := by
    rw [ha, hb, hc]
    norm_num [normalLen, normalX, normalY, normalZ, Real.sqrt_one]
  have hnz : normalZ (vtx quadVerts faceQ1.v1) (vtx quadVerts faceQ1.v2)
      (vtx quadVerts faceQ1.v3) = 1 := by
    rw [ha, hb, hc]; norm_num [normalZ]
  have hnd : ¬ normalLen (vtx quadVerts faceQ1.v1) (vtx quadVerts faceQ1.v2)
      (vtx quadVerts faceQ1.v3) < 1e-6 := by rw [hlen]; norm_num
  simp only [emitFace, blueVal, intensity, unitNz]
  rw [if_neg hnd, hnz, hlen, ha, hb, hc]
  norm_num [project, castLong, WIDTH, HEIGHT, min_def, Int.floor_intCast]

/-- The commands emitted for the upper-right square face. -/
theorem emitFace_quad2 : emitFace quadVerts faceQ2 =
    [DrawCmd.tri (640, 300) (640, 60) (400, 60) 0 0 255,
     DrawCmd.seg (640, 300) (640, 60),
     DrawCmd.seg (640, 60) (400, 60),
     DrawCmd.seg (400, 60) (640, 300)] := by
  have ha : vtx quadVerts faceQ2.v1 = ⟨2, 1, 0, 0⟩ := rfl
  have hb : vtx quadVerts faceQ2.v2 = ⟨4, 1, 1, 0⟩ := rfl
  have hc : vtx quadVerts faceQ2.v3 = ⟨3, 0, 1, 0⟩ := rfl
  have hlen : normalLen (vtx quadVerts faceQ2.v1) (vtx quadVerts faceQ2.v2)
      (vtx quadVerts faceQ2.v3) = 1 := by
    rw [ha, hb, hc]
    norm_num [normalLen, normalX, normalY, normalZ, Real.sqrt_one]
  have hnz : normalZ (vtx quadVerts faceQ2.v1) (vtx quadVerts faceQ2.v2)
      (vtx quadVerts faceQ2.v3) = 1 := by
    rw [ha, hb, hc]; norm_num [normalZ]
  have hnd : ¬ normalLen (vtx quadVerts faceQ2.v1) (vtx quadVerts faceQ2.v2)
      (vtx quadVerts faceQ2.v3) < 1e-6 := by rw [hlen]; norm_num
  simp only [emitFace, blueVal, intensity, unitNz]
  rw [if_neg hnd, hnz, hlen, ha, hb, hc]
  norm_num [project, castLong, WIDTH, HEIGHT, min_def, Int.floor_intCast]

/-- The pre-sort indexed list of the square mesh: both faces have average
depth 0. -/
theorem indexedFaces_quad : indexedFaces quadVerts quadFaces = [eQ1, eQ2] := by
  have h1 : (vtx quadVerts faceQ1.v1).z = 0 := rfl
  have h2 : (vtx quadVerts faceQ1.v2).z = 0 := rfl
  have h3 : (vtx quadVerts faceQ1.v3).z = 0 := rfl
  have h4 : (vtx quadVerts faceQ2.v1).z = 0 := rfl
  have h5 : (vtx quadVerts faceQ2.v2).z = 0 := rfl
  have h6 : (vtx quadVerts faceQ2.v3).z = 0 := rfl
  rw [indexedFaces, quadFaces]
  simp only [List.map_cons, List.map_nil, h1, h2, h3, h4, h5, h6]
  rw [eQ1, eQ2]
  norm_num

/-- The original face order is an admissible result of `std::sort` (both
depth keys are 0). -/
theorem sortedBy_quad_orig :
    SortedBy (indexedFaces quadVerts quadFaces) [eQ1, eQ2] := by
  rw [indexedFaces_quad]
  exact ⟨List.Perm.refl _, by simp [eQ1, eQ2, List.pairwise_cons]⟩

/-- The swapped face order is likewise admissible: equal keys compare
false both ways under the strict comparator. -/
theorem sortedBy_quad_swapped :
    SortedBy (indexedFaces quadVerts quadFaces) [eQ2, eQ1] := by
  rw [indexedFaces_quad]
  exact ⟨List.Perm.swap eQ1 eQ2 [], by simp [eQ1, eQ2, List.pairwise_cons]⟩

/-- Face-loop commands of the original order. -/
theorem renderFaces_quad_orig : (renderFaces quadVerts [eQ1, eQ2]).1 =
    emitFace quadVerts faceQ1 ++ emitFace quadVerts faceQ2 := rfl

/-- Face-loop commands of the swapped order. -/
theorem renderFaces_quad_swapped : (renderFaces quadVerts [eQ2, eQ1]).1 =
    emitFace quadVerts faceQ2 ++ emitFace quadVerts faceQ1 := rfl

/-- First command of the original order: the lower-left fill. -/
theorem renderSorted_quad_head_orig :
    (renderSorted quadVerts [eQ1, eQ2]).head? =
      some (DrawCmd.tri (400, 300) (640, 300) (400, 60) 0 0 255) := by
  rw [renderSorted, renderFaces_quad_orig, emitFace_quad1]
  rfl

/-- First command of the swapped order: the upper-right fill. -/
theorem renderSorted_quad_head_swapped :
    (renderSorted quadVerts [eQ2, eQ1]).head? =
      some (DrawCmd.tri (640, 300) (640, 60) (400, 60) 0 0 255) := by
  rw [renderSorted, renderFaces_quad_swapped, emitFace_quad2]
  rfl

/-- Counterexample to C4's stability clause: the code sorts with
`std::sort`, whose contract fixes only "permutation + sorted by the
comparator" and leaves the relative order of equal keys unspecified — it
is not a stable sort.  On the square mesh both faces have `avgZ = 0`, and
both the original and the swapped order are admissible executions that
emit *different* command streams, so the claimed determinate
stable-tie-break output ("faces with equal avgZ keep their original
relative order") is false of the code. -/
theorem sort_not_deterministic :
    ∃ out1 out2, DrawOutput quadVerts quadFaces out1 ∧
      DrawOutput quadVerts quadFaces out2 ∧ out1 ≠ out2 := by
  refine ⟨renderSorted quadVerts [eQ1, eQ2], renderSorted quadVerts [eQ2, eQ1],
    ⟨[eQ1, eQ2], sortedBy_quad_orig, rfl⟩,
    ⟨[eQ2, eQ1], sortedBy_quad_swapped, rfl⟩, ?_⟩
  intro h
  have h1 := renderSorted_quad_head_orig
  rw [h, renderSorted_quad_head_swapped] at h1
  simp at h1

/-- The dot pass contributes no fill command. -/
theorem filter_isTri_dotCmds (ts : List Vertex) (vis : List Bool) :
    (dotCmds ts vis).filter isTri = [] := by
  rw [List.filter_eq_nil_iff]
  intro cmd hmem
  rw [dotCmds] at hmem
  obtain ⟨i, hi, hcmd⟩ := List.mem_filterMap.mp hmem
  by_cases h1 : vis.getD i false = true
  · rw [if_pos h1] at hcmd
    by_cases h2 : (ts.getD i defaultVertex).z ≤ 0
    · rw [if_pos h2] at hcmd
      exact Option.noConfusion hcmd
    · rw [if_neg h2] at hcmd
      cases Option.some.inj hcmd
      simp [isTri]
  · rw [if_neg h1] at hcmd
    exact Option.noConfusion hcmd

/-- Filtering the face loop's commands down to fills yields exactly one
shaded triangle per non-degenerate face, in loop order. -/
theorem fills_foldl (ts : List Vertex) (s : List IndexedFace) :
    ∀ acc : List DrawCmd × List Bool,
      ((s.foldl (renderStep ts) acc).1).filter isTri =
        acc.1.filter isTri ++ s.filterMap (triOf ts) := by
  induction s with
  | nil => intro acc; simp
  | cons e s ih =>
    intro acc
    rw [List.foldl_cons, ih, List.filterMap_cons]
    have h1 : (renderStep ts acc e).1 = acc.1 ++ emitFace ts e.face := rfl
    rw [h1, List.filter_append, List.append_assoc]
    congr 1
    by_cases hdeg : normalLen (vtx ts e.face.v1) (vtx ts e.face.v2)
        (vtx ts e.face.v3) < 1e-6
    · simp only [emitFace, triOf, if_pos hdeg]
      simp
    · simp only [emitFace, triOf, if_neg hdeg]
      simp [isTri]

/-- C4 as amended: the code computes each face's `avgZ` as the mean of
its three transformed Z coordinates and emits the fills of *some*
permutation of the faces that is nondecreasing in `avgZ` (back-to-front
painter order); the relative order of equal-`avgZ` faces is unspecified,
because `std::sort` is not stable. -/
theorem fills_sorted_by_avgZ (ts : List Vertex) (fs : List Face)
    (out : List DrawCmd) (h : DrawOutput ts fs out) :
    ∃ s : List IndexedFace, s.Perm (indexedFaces ts fs) ∧
      s.Pairwise (fun e1 e2 => e1.avgZ ≤ e2.avgZ) ∧
      out.filter isTri = s.filterMap (triOf ts) := by
  obtain ⟨s, ⟨hperm, hpair⟩, rfl⟩ := h
  refine ⟨s, hperm, hpair, ?_⟩
  rw [renderSorted, List.filter_append, filter_isTri_dotCmds,
    List.append_nil, renderFaces, fills_foldl]
  simp

/-- Witness for the amended C4 at the square mesh with the original
admissible order. -/
theorem fills_sorted_by_avgZ_witness :
    DrawOutput quadVerts quadFaces (renderSorted quadVerts [eQ1, eQ2]) ∧
    ∃ s : List IndexedFace, s.Perm (indexedFaces quadVerts quadFaces) ∧
      s.Pairwise (fun e1 e2 => e1.avgZ ≤ e2.avgZ) ∧
      (renderSorted quadVerts [eQ1, eQ2]).filter isTri =
        s.filterMap (triOf quadVerts) := by
  have hdo : DrawOutput quadVerts quadFaces
      (renderSorted quadVerts [eQ1, eQ2]) :=
    ⟨[eQ1, eQ2], sortedBy_quad_orig, rfl⟩
  exact ⟨hdo, fills_sorted_by_avgZ quadVerts quadFaces _ hdo⟩

/-- Rotation about the X-axis preserves the squared Euclidean norm. -/
theorem rotateX_normSq (v : Vertex) (a : ℝ) :
    (rotateX v a).x * (rotateX v a).x + (rotateX v a).y * (rotateX v a).y +
      (rotateX v a).z * (rotateX v a).z =
    v.x * v.x + v.y * v.y + v.z * v.z := by
  have h := Real.sin_sq_add_cos_sq (a * Real.pi / 180)
  simp only [rotateX]
  linear_combination (v.y * v.y + v.z * v.z) * h

/-- Rotation about the Y-axis preserves the squared Euclidean norm. -/
theorem rotateY_normSq (v : Vertex) (a : ℝ) :
    (rotateY v a).x * (rotateY v a).x + (rotateY v a).y * (rotateY v a).y +
      (rotateY v a).z * (rotateY v a).z =
    v.x * v.x + v.y * v.y + v.z * v.z := by
  have h := Real.sin_sq_add_cos_sq (a * Real.pi / 180)
  simp only [rotateY]
  linear_combination (v.x * v.x + v.z * v.z) * h

/-- The running maximum of the `maxExtent` loop never drops below its
starting value. -/
theorem foldl_max_init (g : Vertex → ℝ) :
    ∀ (l : List Vertex) (init : ℝ),
      init ≤ l.foldl (fun m v => if g v > m then g v else m) init := by
  intro l
  induction l with
  | nil => intro init; simp
  | cons v l ih =>
    intro init
    rw [List.foldl_cons]
    have hstep : init ≤ if g v > init then g v else init := by
      by_cases h : g v > init
      · rw [if_pos h]; exact le_of_lt h
      · rw [if_neg h]
    exact le_trans hstep (ih _)

/-- Every list element's value is bounded by the loop's final maximum. -/
theorem foldl_max_mem (g : Vertex → ℝ) :
    ∀ (l : List Vertex) (init : ℝ) (v : Vertex), v ∈ l →
      g v ≤ l.foldl (fun m w => if g w > m then g w else m) init := by
  intro l
  induction l with
  | nil => intro init v hv; cases hv
  | cons w l ih =>
    intro init v hv
    rw [List.foldl_cons]
    rcases List.mem_cons.mp hv with rfl | hv
    · refine le_trans ?_ (foldl_max_init g l _)
      by_cases h : g v > init
      · rw [if_pos h]
      · rw [if_neg h]; exact le_of_not_lt h
    · exact ih _ v hv

/-- Every vertex of the mesh lies within `maxExtent` of the centroid. -/
theorem centDist_le_maxExtent (vs : List Vertex) (v : Vertex) (hv : v ∈ vs) :
    centDist vs v ≤ maxExtent vs :=
  foldl_max_mem (centDist vs) vs 0 v hv

/-- The squared norm of a normalised vertex is at most 1 when the divisor
is positive. -/
theorem normVertex_normSq_le (vs : List Vertex) (v : Vertex)
    (hv : v ∈ vs) (hpos : 0 < maxExtent vs) :
    (normVertex vs v).x * (normVertex vs v).x +
      (normVertex vs v).y * (normVertex vs v).y +
      (normVertex vs v).z * (normVertex vs v).z ≤ 1 := by
  have hle : centDist vs v ≤ maxExtent vs := centDist_le_maxExtent vs v hv
  have hnn : 0 ≤ centDist vs v := Real.sqrt_nonneg _
  have hsq : centDist vs v * centDist vs v ≤ maxExtent vs * maxExtent vs :=
    mul_le_mul hle hle hnn (le_of_lt hpos)
  have hcd : centDist vs v * centDist vs v =
      (v.x - centroidX vs) * (v.x - centroidX vs) +
      (v.y - centroidY vs) * (v.y - centroidY vs) +
      (v.z - centroidZ vs) * (v.z - centroidZ vs) := by
    simp only [centDist]
    exact Real.mul_self_sqrt (add_nonneg (add_nonneg (mul_self_nonneg _)
      (mul_self_nonneg _)) (mul_self_nonneg _))
  have hm : (0:ℝ) < maxExtent vs * maxExtent vs := by positivity
  simp only [normVertex]
  rw [div_mul_div_comm, div_mul_div_comm, div_mul_div_comm,
    div_add_div_same, div_add_div_same, div_le_one hm]
  calc (v.x - centroidX vs) * (v.x - centroidX vs) +
      (v.y - centroidY vs) * (v.y - centroidY vs) +
      (v.z - centroidZ vs) * (v.z - centroidZ vs)
      = centDist vs v * centDist vs v := hcd.symm
    _ ≤ maxExtent vs * maxExtent vs := hsq

/-- Summing `(g v - c) / m` over a list. -/
theorem sum_map_div_center (g : Vertex → ℝ) (c m : ℝ) :
    ∀ l : List Vertex, (l.map (fun v => (g v - c) / m)).sum =
      ((l.map g).sum - l.length * c) / m := by
  intro l
  induction l with
  | nil => simp
  | cons v l ih =>
    simp only [List.map_cons, List.sum_cons, ih, List.length_cons]
    push_cast
    ring

/-- Summing a fixed linear combination of the coordinates over a list. -/
theorem sum_map_lin3 (f g h : Vertex → ℝ) (a b c : ℝ) :
    ∀ l : List Vertex, (l.map (fun v => a * f v + b * g v + c * h v)).sum =
      a * (l.map f).sum + b * (l.map g).sum + c * (l.map h).sum := by
  intro l
  induction l with
  | nil => simp
  | cons v l ih =>
    simp only [List.map_cons, List.sum_cons, ih]
    ring

/-- A nonempty mesh's length does not vanish as a real number. -/
theorem length_ne_zero_real (vs : List Vertex) (hne : vs ≠ []) :
    (vs.length : ℝ) ≠ 0 := by
  have : vs.length ≠ 0 := by
    intro h
    exact hne (List.length_eq_zero.mp h)
  exact_mod_cast this

/-- The centered x coordinates of a nonempty mesh sum to zero, even after
the uniform division. -/
theorem sum_centered_x (vs : List Vertex) (hne : vs ≠ []) :
    (vs.map (fun v => (v.x - centroidX vs) / maxExtent vs)).sum = 0 := by
  have hn := length_ne_zero_real vs hne
  rw [show (fun v : Vertex => (v.x - centroidX vs) / maxExtent vs) =
      (fun v : Vertex => (Vertex.x v - (vs.map Vertex.x).sum /
        (vs.length : ℝ)) / maxExtent vs) from rfl,
    sum_map_div_center Vertex.x ((vs.map Vertex.x).sum / (vs.length : ℝ))
      (maxExtent vs) vs,
    mul_comm ((vs.length : ℝ)) _, div_mul_cancel₀ _ hn, sub_self, zero_div]

/-- The centered y coordinates of a nonempty mesh sum to zero. -/
theorem sum_centered_y (vs : List Vertex) (hne : vs ≠ []) :
    (vs.map (fun v => (v.y - centroidY vs) / maxExtent vs)).sum = 0 := by
  have hn := length_ne_zero_real vs hne
  rw [show (fun v : Vertex => (v.y - centroidY vs) / maxExtent vs) =
      (fun v : Vertex => (Vertex.y v - (vs.map Vertex.y).sum /
        (vs.length : ℝ)) / maxExtent vs) from rfl,
    sum_map_div_center Vertex.y ((vs.map Vertex.y).sum / (vs.length : ℝ))
      (maxExtent vs) vs,
    mul_comm ((vs.length : ℝ)) _, div_mul_cancel₀ _ hn, sub_self, zero_div]

/-- The centered z coordinates of a nonempty mesh sum to zero. -/
theorem sum_centered_z (vs : List Vertex) (hne : vs ≠ []) :
    (vs.map (fun v => (v.z - centroidZ vs) / maxExtent vs)).sum = 0 := by
  have hn := length_ne_zero_real vs hne
  rw [show (fun v : Vertex => (v.z - centroidZ vs) / maxExtent vs) =
      (fun v : Vertex => (Vertex.z v - (vs.map Vertex.z).sum /
        (vs.length : ℝ)) / maxExtent vs) from rfl,
    sum_map_div_center Vertex.z ((vs.map Vertex.z).sum / (vs.length : ℝ))
      (maxExtent vs) vs,
    mul_comm ((vs.length : ℝ)) _, div_mul_cancel₀ _ hn, sub_self, zero_div]

/-- All three coordinate sums of the transformed mesh vanish: the two
rotations are linear, and the centered coordinates sum to zero. -/
theorem applyTransform_sum_zero (vs : List Vertex) (aX aY : ℝ)
    (hne : vs ≠ []) :
    ((applyTransform vs aX aY).map Vertex.x).sum = 0 ∧
    ((applyTransform vs aX aY).map Vertex.y).sum = 0 ∧
    ((applyTransform vs aX aY).map Vertex.z).sum = 0 := by
  have sx := sum_centered_x vs hne
  have sy := sum_centered_y vs hne
  have sz := sum_centered_z vs hne
  have key : ∀ (p : Vertex → ℝ) (a b c : ℝ),
      (∀ w : Vertex, p (rotateY (rotateX w aX) aY) =
        a * w.x + b * w.y + c * w.z) →
      ((applyTransform vs aX aY).map p).sum = 0 := by
    intro p a b c hp
    rw [applyTransform, List.map_map]
    have hfun : (p ∘ fun v => rotateY (rotateX (normVertex vs v) aX) aY) =
        fun v => a * ((v.x - centroidX vs) / maxExtent vs) +
          b * ((v.y - centroidY vs) / maxExtent vs) +
          c * ((v.z - centroidZ vs) / maxExtent vs) := by
      funext v
      exact hp (normVertex vs v)
    rw [hfun, sum_map_lin3, sx, sy, sz]
    ring
  refine ⟨key Vertex.x (Real.cos (aY * Real.pi / 180))
      (Real.sin (aX * Real.pi / 180) * Real.sin (aY * Real.pi / 180))
      (Real.cos (aX * Real.pi / 180) * Real.sin (aY * Real.pi / 180)) ?_,
    key Vertex.y 0 (Real.cos (aX * Real.pi / 180))
      (-Real.sin (aX * Real.pi / 180)) ?_,
    key Vertex.z (-Real.sin (aY * Real.pi / 180))
      (Real.sin (aX * Real.pi / 180) * Real.cos (aY * Real.pi / 180))
      (Real.cos (aX * Real.pi / 180) * Real.cos (aY * Real.pi / 180)) ?_⟩ <;>
    (intro w; simp only [rotateX, rotateY]; ring)

/-- C9: for every mesh with at least one vertex, positive `maxExtent` and
any rotation angles, every transformed vertex lies within Euclidean
distance `1 + eps` of the transformed mesh's centroid (for any `eps ≥ 0`):
normalisation bounds the centered, scaled vertex by 1, the X- and Y-axis
rotations preserve norms, and the transformed centroid is the origin. -/
theorem unit_sphere_bound (vs : List Vertex) (aX aY eps : ℝ)
    (hne : vs ≠ []) (hpos : 0 < maxExtent vs) (heps : 0 ≤ eps) :
    ∀ t ∈ applyTransform vs aX aY,
      Real.sqrt ((t.x - centroidX (applyTransform vs aX aY)) *
          (t.x - centroidX (applyTransform vs aX aY)) +
        (t.y - centroidY (applyTransform vs aX aY)) *
          (t.y - centroidY (applyTransform vs aX aY)) +
        (t.z - centroidZ (applyTransform vs aX aY)) *
          (t.z - centroidZ (applyTransform vs aX aY))) ≤ 1 + eps := by
  obtain ⟨sx, sy, sz⟩ := applyTransform_sum_zero vs aX aY hne
  have hcx : centroidX (applyTransform vs aX aY) = 0 := by
    rw [centroidX, sx, zero_div]
  have hcy : centroidY (applyTransform vs aX aY) = 0 := by
    rw [centroidY, sy, zero_div]
  have hcz : centroidZ (applyTransform vs aX aY) = 0 := by
    rw [centroidZ, sz, zero_div]
  intro t ht
  rw [hcx, hcy, hcz]
  simp only [sub_zero]
  rw [applyTransform] at ht
  obtain ⟨v, hv, rfl⟩ := List.mem_map.mp ht
  have h1 : (rotateY (rotateX (normVertex vs v) aX) aY).x *
        (rotateY (rotateX (normVertex vs v) aX) aY).x +
      (rotateY (rotateX (normVertex vs v) aX) aY).y *
        (rotateY (rotateX (normVertex vs v) aX) aY).y +
      (rotateY (rotateX (normVertex vs v) aX) aY).z *
        (rotateY (rotateX (normVertex vs v) aX) aY).z ≤ 1 := by
    rw [rotateY_normSq, rotateX_normSq]
    exact normVertex_normSq_le vs v hv hpos
  have h2 := Real.sqrt_le_one.mpr h1
  linarith

/-- Witness for C9 at the concrete mesh `mesh2`, zero angles and
`eps = 0`. -/
theorem unit_sphere_bound_witness :
    mesh2 ≠ [] ∧ 0 < maxExtent mesh2 ∧ (0:ℝ) ≤ 0 ∧
    ∀ t ∈ applyTransform mesh2 0 0,
      Real.sqrt ((t.x - centroidX (applyTransform mesh2 0 0)) *
          (t.x - centroidX (applyTransform mesh2 0 0)) +
        (t.y - centroidY (applyTransform mesh2 0 0)) *
          (t.y - centroidY (applyTransform mesh2 0 0)) +
        (t.z - centroidZ (applyTransform mesh2 0 0)) *
          (t.z - centroidZ (applyTransform mesh2 0 0))) ≤ 1 + 0 := by
  have hpos : 0 < maxExtent mesh2 := by rw [maxExtent_mesh2]; norm_num
  exact ⟨by simp [mesh2], hpos, le_refl 0,
    unit_sphere_bound mesh2 0 0 0 (by simp [mesh2]) hpos (le_refl 0)⟩

/-- Meshes agreeing on coordinates have equal id-erased forms. -/
theorem reId_eq_of_sameCoords (vs ws : List Vertex) (h : SameCoords vs ws) :
    reId vs = reId ws := by
  have h1 : reId vs = (vs.map coordsOf).map
      (fun p => (⟨0, p.1, p.2.1, p.2.2⟩ : Vertex)) := by
    rw [reId, List.map_map]; rfl
  have h2 : reId ws = (ws.map coordsOf).map
      (fun p => (⟨0, p.1, p.2.1, p.2.2⟩ : Vertex)) := by
    rw [reId, List.map_map]; rfl
  rw [h1, h2, h]

/-- Meshes with equal id-erased forms agree on coordinates. -/
theorem sameCoords_of_reId_eq (l1 l2 : List Vertex) (h : reId l1 = reId l2) :
    SameCoords l1 l2 := by
  rw [SameCoords,
    show l1.map coordsOf = (reId l1).map coordsOf from by
      rw [reId, List.map_map]; rfl,
    show l2.map coordsOf = (reId l2).map coordsOf from by
      rw [reId, List.map_map]; rfl,
    h]

/-- The centroid's X-component ignores ids. -/
theorem centroidX_reId (l : List Vertex) : centroidX (reId l) = centroidX l := by
  rw [centroidX, centroidX, reId, List.map_map, List.length_map]
  rfl

/-- The centroid's Y-component ignores ids. -/
theorem centroidY_reId (l : List Vertex) : centroidY (reId l) = centroidY l := by
  rw [centroidY, centroidY, reId, List.map_map, List.length_map]
  rfl

/-- The centroid's Z-component ignores ids. -/
theorem centroidZ_reId (l : List Vertex) : centroidZ (reId l) = centroidZ l := by
  rw [centroidZ, centroidZ, reId, List.map_map, List.length_map]
  rfl

/-- The centroid distance ignores ids. -/
theorem centDist_reId (l : List Vertex) (v : Vertex) :
    centDist (reId l) (reIdFun v) = centDist l v := by
  simp only [centDist, reIdFun, centroidX_reId, centroidY_reId, centroidZ_reId]

/-- The maximal centroid distance ignores ids. -/
theorem maxExtent_reId (l : List Vertex) : maxExtent (reId l) = maxExtent l := by
  rw [maxExtent, maxExtent, reId, List.foldl_map]
  have hre : l.map reIdFun = reId l := rfl
  simp only [hre, centDist_reId]

/-- Positional lookup commutes with id erasure. -/
theorem vtx_reId (ts : List Vertex) (i : Int) :
    vtx (reId ts) i = reIdFun (vtx ts i) := by
  rw [vtx, vtx, reId, List.getD_eq_getElem?_getD, List.getD_eq_getElem?_getD,
    List.getElem?_map]
  cases ts[(i - 1).toNat]? with
  | none => rfl
  | some w => rfl

/-- 0-based `getD` lookup commutes with id erasure. -/
theorem getD_reId (ts : List Vertex) (i : Nat) :
    (reId ts).getD i defaultVertex = reIdFun (ts.getD i defaultVertex) := by
  rw [reId, List.getD_eq_getElem?_getD, List.getD_eq_getElem?_getD,
    List.getElem?_map]
  cases ts[i]? with
  | none => rfl
  | some w => rfl

/-- The cross-normal length reads only coordinates. -/
theorem normalLen_reIdFun (a b c : Vertex) :
    normalLen (reIdFun a) (reIdFun b) (reIdFun c) = normalLen a b c := rfl

/-- The unit normal's Z-component reads only coordinates. -/
theorem unitNz_reIdFun (a b c : Vertex) :
    unitNz (reIdFun a) (reIdFun b) (reIdFun c) = unitNz a b c := rfl

/-- The projection reads only coordinates. -/
theorem project_reIdFun (v : Vertex) : project (reIdFun v) = project v := rfl

/-- The shaded blue value reads only coordinates. -/
theorem blueVal_reIdFun (a b c : Vertex) :
    blueVal (reIdFun a) (reIdFun b) (reIdFun c) = blueVal a b c := rfl

/-- The per-face commands ignore ids: projection, normal and color read
only coordinates. -/
theorem emitFace_reId (ts : List Vertex) (f : Face) :
    emitFace (reId ts) f = emitFace ts f := by
  simp only [emitFace, vtx_reId, normalLen_reIdFun, project_reIdFun,
    blueVal_reIdFun]

/-- The visibility update ignores ids. -/
theorem visUpdate_reId (ts : List Vertex) (f : Face) (vis : List Bool) :
    visUpdate (reId ts) f vis = visUpdate ts f vis := by
  simp only [visUpdate, vtx_reId, normalLen_reIdFun, unitNz_reIdFun]

/-- One loop step ignores ids. -/
theorem renderStep_reId (ts : List Vertex) :
    renderStep (reId ts) = renderStep ts := by
  funext acc e
  rw [renderStep, renderStep, emitFace_reId, visUpdate_reId]

/-- The dot pass ignores ids. -/
theorem dotCmds_reId (ts : List Vertex) (vis : List Bool) :
    dotCmds (reId ts) vis = dotCmds ts vis := by
  rw [dotCmds, dotCmds,
    show (reId ts).length = ts.length from List.length_map _ _]
  congr 1
  funext i
  rw [getD_reId]
  rfl

/-- The depth keys ignore ids. -/
theorem indexedFaces_reId (ts : List Vertex) (fs : List Face) :
    indexedFaces (reId ts) fs = indexedFaces ts fs := by
  rw [indexedFaces, indexedFaces]
  refine List.map_congr_left ?_
  intro f _
  rw [vtx_reId, vtx_reId, vtx_reId]
  rfl

/-- The full per-order command stream ignores ids. -/
theorem renderSorted_reId (ts : List Vertex) (s : List IndexedFace) :
    renderSorted (reId ts) s = renderSorted ts s := by
  rw [renderSorted, renderSorted, renderFaces, renderFaces, renderStep_reId,
    show (reId ts).length = ts.length from List.length_map _ _, dotCmds_reId]

/-- The relational draw semantics ignores ids. -/
theorem drawOutput_reId (ts : List Vertex) (fs : List Face)
    (out : List DrawCmd) :
    DrawOutput (reId ts) fs out ↔ DrawOutput ts fs out := by
  rw [DrawOutput, DrawOutput, indexedFaces_reId]
  constructor
  · rintro ⟨s, hs, rfl⟩
    exact ⟨s, hs, renderSorted_reId ts s⟩
  · rintro ⟨s, hs, rfl⟩
    exact ⟨s, hs, (renderSorted_reId ts s).symm⟩

/-- Transforming an id-erased mesh is erasing the ids of the transformed
mesh: the pipeline carries the id through untouched and never reads it. -/
theorem reId_applyTransform (l : List Vertex) (aX aY : ℝ) :
    reId (applyTransform l aX aY) = applyTransform (reId l) aX aY := by
  rw [applyTransform]
  rw [show reId ((l.map fun v => rotateY (rotateX (normVertex l v) aX) aY)) =
    l.map (fun v => reIdFun (rotateY (rotateX (normVertex l v) aX) aY)) from by
      rw [reId, List.map_map]; rfl]
  rw [applyTransform, reId, List.map_map]
  refine List.map_congr_left ?_
  intro v _
  show reIdFun (rotateY (rotateX (normVertex l v) aX) aY) =
    rotateY (rotateX (normVertex (reId l) (reIdFun v)) aX) aY
  have h1 : normVertex (reId l) (reIdFun v) = reIdFun (normVertex l v) := by
    simp only [normVertex, reIdFun, centroidX_reId, centroidY_reId,
      centroidZ_reId, maxExtent_reId]
  rw [h1]
  simp only [rotateX, rotateY, reIdFun]

/-- C10: the parsed vertex id has no influence on the output.  `rotateX`
and `rotateY` copy the id through unchanged; for any two meshes that agree
on coordinates but differ arbitrarily in ids, the transformed meshes agree
on all coordinates and the relational draw semantics admits exactly the
same command streams (two-run noninterference of the id field). -/
theorem id_noninterference (vs ws : List Vertex) (fs : List Face)
    (aX aY : ℝ) (out : List DrawCmd) (h : SameCoords vs ws) :
    (∀ v a, ((rotateX v a).id = v.id ∧ (rotateY v a).id = v.id)) ∧
    SameCoords (applyTransform vs aX aY) (applyTransform ws aX aY) ∧
    (DrawOutput (applyTransform vs aX aY) fs out ↔
      DrawOutput (applyTransform ws aX aY) fs out) := by
  have hre : reId vs = reId ws := reId_eq_of_sameCoords vs ws h
  refine ⟨fun v a => ⟨rfl, rfl⟩, ?_, ?_⟩
  · refine sameCoords_of_reId_eq _ _ ?_
    rw [reId_applyTransform, reId_applyTransform, hre]
  · rw [← drawOutput_reId (applyTransform vs aX aY) fs out,
      ← drawOutput_reId (applyTransform ws aX aY) fs out,
      reId_applyTransform, reId_applyTransform, hre]

/-- Witness for C10: `mesh2` and `mesh2Ids` differ only in ids, and the
conclusion holds at zero angles with no faces and the empty stream. -/
theorem id_noninterference_witness :
    SameCoords mesh2 mesh2Ids ∧
    ((∀ v a, ((rotateX v a).id = v.id ∧ (rotateY v a).id = v.id)) ∧
    SameCoords (applyTransform mesh2 0 0) (applyTransform mesh2Ids 0 0) ∧
    (DrawOutput (applyTransform mesh2 0 0) ([] : List Face)
        ([] : List DrawCmd) ↔
      DrawOutput (applyTransform mesh2Ids 0 0) ([] : List Face)
        ([] : List DrawCmd))) := by
  have hsc : SameCoords mesh2 mesh2Ids := by
    simp [SameCoords, coordsOf, mesh2, mesh2Ids]
  exact ⟨hsc, id_noninterference mesh2 mesh2Ids [] 0 0 [] hsc⟩

end Viewer
